import Mathlib

/-!
Shallow embedding of the DEM-modeling notebook (`hdl_dem.ipynb`).

Numeric cells of the numpy arrays are modelled as `Option ℚ`, with `none`
standing for IEEE NaN; `np.nansum` / `np.nanmean` ignore `none` entries,
matching numpy's NaN-ignoring reductions.  Arrays indexed by
(time sample, wavelength bin) are lists of rows.
-/

namespace HdlDem

/-- A floating-point cell: `none` models NaN. -/
abbrev Cell := Option ℚ

/-- The non-NaN entries of a list of cells. -/
def validVals (xs : List Cell) : List ℚ := xs.filterMap id

/-- `np.nansum` over a 1-D slice: NaN entries are ignored, an empty or
all-NaN slice sums to 0. -/
def nansum (xs : List Cell) : ℚ := (validVals xs).sum

/-- Column `j` of a 2-D array of cells (rows too short contribute NaN,
which the NaN-ignoring reductions then skip). -/
def col (rows : List (List Cell)) (j : ℕ) : List Cell :=
  rows.map (fun r => r.getD j none)

/-- Boolean-mask row selection, as in `fwc.flux[mq]`: keep the rows whose
mask entry is `true`. -/
def boolSelect : List Bool → List α → List α
  | true :: ms, r :: rs => r :: boolSelect ms rs
  | false :: ms, _ :: rs => boolSelect ms rs
  | _, _ => []

/-- `mq = np.nansum(flare_mask, axis=0) == 0` : time sample `j` is classified
flare-free exactly when the NaN-ignoring sum of column `j` of the flare mask
is zero.  `T` is the number of time samples (the mask's trailing dimension). -/
def mq (T : ℕ) (flare_mask : List (List Cell)) : List Bool :=
  (List.range T).map (fun j => decide (nansum (col flare_mask j) = 0))

/-- `np.nanmean(rows, axis=0)` over `nbins` wavelength bins: per bin, the mean
of the non-NaN entries of that column; NaN when the column has no valid entry
(in particular when `rows` is empty). -/
def nanmean0 (nbins : ℕ) (rows : List (List Cell)) : List Cell :=
  (List.range nbins).map (fun j =>
    let vs := validVals (col rows j)
    if vs.length = 0 then none else some (vs.sum / vs.length))

/-- `mean_quiescent = np.nanmean(fwc.flux[mq], axis=0)`. -/
def mean_quiescent (nbins : ℕ) (flux : List (List Cell)) (mask : List Bool) :
    List Cell :=
  nanmean0 nbins (boolSelect mask flux)

/-- Core of the quiescent error formula on the already-selected rows:
`np.sqrt(np.nansum(rows**2, axis=0)) / len(rows)`.  When `rows` is empty the
numerator is `sqrt(0) = 0` and the denominator 0, so IEEE gives `0/0 = NaN`,
modelled as `none`. -/
noncomputable def quiErr0 (nbins : ℕ) (rows : List (List Cell)) :
    List (Option ℝ) :=
  (List.range nbins).map (fun j =>
    if rows.length = 0 then none
    else some (Real.sqrt ((nansum ((col rows j).map (Option.map (fun x => x ^ 2))) : ℚ) : ℝ)
                 / (rows.length : ℝ)))

/-- `mean_quiexcent_err = np.sqrt(np.nansum(fwc.flux_err[mq]**2, axis=0)) /
len(fwc.flux_err[mq])` (the notebook's spelling is kept). -/
noncomputable def mean_quiexcent_err (nbins : ℕ) (flux_err : List (List Cell))
    (mask : List Bool) : List (Option ℝ) :=
  quiErr0 nbins (boolSelect mask flux_err)

/-! Helper lemmas about the NaN-aware reductions. -/

lemma nansum_eq_sum_getD (xs : List Cell) :
    nansum xs = (xs.map (fun c => c.getD 0)).sum := by
  induction xs with
  | nil => rfl
  | cons x xs ih =>
    cases x <;> simp [nansum, validVals, List.filterMap_cons, ih, Option.getD] <;>
      simpa [nansum, validVals] using ih

lemma validVals_eq_nil (xs : List Cell) (h : ∀ c ∈ xs, c = none) :
    validVals xs = [] := by
  induction xs with
  | nil => rfl
  | cons x xs ih =>
    have hx := h x (List.mem_cons_self x xs)
    subst hx
    simp only [validVals, List.filterMap_cons, id]
    exact ih (fun c hc => h c (List.mem_cons_of_mem _ hc))

lemma mq_getD (T : ℕ) (fm : List (List Cell)) (j : ℕ) (hj : j < T) :
    (mq T fm).getD j false = decide (nansum (col fm j) = 0) := by
  simp [mq, List.getD_eq_getElem?_getD, List.getElem?_map, List.getElem?_range, hj]

lemma boolSelect_getD_mem {α : Type} (mask : List Bool) :
    ∀ (rows : List α) (j : ℕ) (d : α), mask.length = rows.length →
      j < rows.length → mask.getD j false = true →
      rows.getD j d ∈ boolSelect mask rows := by
  induction mask with
  | nil =>
    intro rows j d hlen hj _
    rw [← hlen] at hj; exact absurd hj (Nat.not_lt_zero j)
  | cons b ms ih =>
    intro rows j d hlen hj hget
    cases rows with
    | nil => simp at hlen
    | cons r rs =>
      cases j with
      | zero =>
        simp only [List.getD_cons_zero] at hget ⊢
        subst hget
        simp [boolSelect]
      | succ j =>
        simp only [List.getD_cons_succ] at hget ⊢
        have hlen' : ms.length = rs.length := by simpa using hlen
        have hj' : j < rs.length := by simpa using hj
        have hmem := ih rs j d hlen' hj' hget
        cases b with
        | true => exact List.mem_cons_of_mem r hmem
        | false => exact hmem

/-- Claim C10: a time sample `j` is classified flare-free exactly when the
NaN-ignoring sum of its flare-mask column is zero; NaN mask entries are
treated as no-flare, so a sample `k` whose mask column is all NaN is
classified flare-free and its flux row is included in the quiescent average. -/
theorem flarefree_iff_nansum_zero (T : ℕ) (fm flux : List (List Cell))
    (j k : ℕ) (hj : j < T) (hk : k < T) (hflux : flux.length = T)
    (hnone : ∀ c ∈ col fm k, c = none) :
    ((mq T fm).getD j false = true ↔ nansum (col fm j) = 0)
    ∧ (mq T fm).getD k false = true
    ∧ flux.getD k [] ∈ boolSelect (mq T fm) flux := by
  have hz : nansum (col fm k) = 0 := by
    simp [nansum, validVals_eq_nil _ hnone]
  have htrue : (mq T fm).getD k false = true := by
    rw [mq_getD T fm k hk, hz]; exact decide_eq_true rfl
  refine ⟨?_, htrue, ?_⟩
  · rw [mq_getD T fm j hj]; exact decide_eq_true_iff
  · have hlen : (mq T fm).length = flux.length := by
      simp [mq, hflux]
    exact boolSelect_getD_mem (mq T fm) flux k [] hlen (hflux ▸ hk) htrue

/-- Claim C10 witness: two time samples, the first flaring, the second with
an all-NaN mask column. -/
theorem flarefree_iff_nansum_zero_witness :
    ((mq 2 [[some 1, none]]).getD 0 false = true
        ↔ nansum (col [[some 1, none]] 0) = 0)
    ∧ (mq 2 [[some 1, none]]).getD 1 false = true
    ∧ ([[some 7], [some 9]] : List (List Cell)).getD 1 [] ∈
        boolSelect (mq 2 [[some 1, none]]) [[some 7], [some 9]] :=
  flarefree_iff_nansum_zero 2 [[some 1, none]] [[some 7], [some 9]] 0 1
    (by decide) (by decide) (by decide) (by decide)

/-- Claim C2 (code bug): when the flare-free subset is empty — here a single
time sample whose mask column sums to 1 — the quiescent mean and error are
silently the all-NaN vector (`np.nanmean` of an empty selection, and `0/0` in
the error formula); no error is raised by the code. -/
theorem quiescent_empty_silent_nan :
    mean_quiescent 1 [[some (5 : ℚ)]] (mq 1 [[some 1]]) = [none]
    ∧ mean_quiexcent_err 1 [[some (1 : ℚ)]] (mq 1 [[some 1]]) = [none] := by
  have hmq : mq 1 [[some (1 : ℚ)]] = [false] := by
    simp [mq, List.range_succ, col, nansum, validVals]
  rw [mean_quiescent, mean_quiexcent_err, hmq]
  constructor
  · rfl
  · simp [boolSelect, quiErr0, List.range_succ]

/-- Claim C7: the quiescent mean flux vector and the propagated error vector
are unchanged under any permutation of the flare-free sample rows. -/
theorem quiescent_perm_invariant (nbins : ℕ) (rows₁ rows₂ : List (List Cell))
    (hperm : List.Perm rows₁ rows₂) :
    nanmean0 nbins rows₁ = nanmean0 nbins rows₂
    ∧ quiErr0 nbins rows₁ = quiErr0 nbins rows₂ := by
  have hcol : ∀ j, List.Perm (validVals (col rows₁ j)) (validVals (col rows₂ j)) :=
    fun j => (hperm.map _).filterMap _
  have hsum : ∀ j, (validVals (col rows₁ j)).sum = (validVals (col rows₂ j)).sum :=
    fun j => (hcol j).sum_eq
  have hlenv : ∀ j, (validVals (col rows₁ j)).length = (validVals (col rows₂ j)).length :=
    fun j => (hcol j).length_eq
  have hsq : ∀ j,
      nansum ((col rows₁ j).map (Option.map (fun x => x ^ 2)))
        = nansum ((col rows₂ j).map (Option.map (fun x => x ^ 2))) := by
    intro j
    have : List.Perm ((col rows₁ j).map (Option.map (fun x => x ^ 2)))
        ((col rows₂ j).map (Option.map (fun x => x ^ 2))) :=
      (hperm.map _).map _
    exact (this.filterMap id).sum_eq
  constructor
  · unfold nanmean0
    refine List.map_congr_left (fun j _ => ?_)
    simp only [hsum j, hlenv j]
  · unfold quiErr0
    refine List.map_congr_left (fun j _ => ?_)
    simp only [hperm.length_eq, hsq j]

/-- Claim C7 witness: swapping two one-bin sample rows. -/
theorem quiescent_perm_invariant_witness :
    List.Perm [[(some 1 : Cell)], [some 2]] [[(some 2 : Cell)], [some 1]]
    ∧ (nanmean0 1 [[(some 1 : Cell)], [some 2]] = nanmean0 1 [[(some 2 : Cell)], [some 1]]
       ∧ quiErr0 1 [[(some 1 : Cell)], [some 2]] = quiErr0 1 [[(some 2 : Cell)], [some 1]]) :=
  ⟨List.Perm.swap _ _ _,
   quiescent_perm_invariant 1 _ _ (List.Perm.swap _ _ _)⟩

/-! Claim C1: the quiescent error vector against the spec's formula. -/

/-- Spec-side quiescent error vector, following the claim's words: per
wavelength bin, the square root of the sum of the squared flux errors over
the flare-free samples, divided by the number of flare-free samples. -/
noncomputable def specQuiescentErr (nbins : ℕ) (errRows : List (List ℚ)) :
    List ℝ :=
  (List.range nbins).map (fun j =>
    Real.sqrt (((errRows.map (fun r => (r.getD j 0) ^ 2)).sum : ℚ) : ℝ)
      / (errRows.length : ℝ))

lemma boolSelect_map {α β : Type} (f : α → β) :
    ∀ (mask : List Bool) (rows : List α),
      boolSelect mask (rows.map f) = (boolSelect mask rows).map f := by
  intro mask
  induction mask with
  | nil => intro rows; cases rows <;> rfl
  | cons b ms ih =>
    intro rows
    cases rows with
    | nil => cases b <;> rfl
    | cons r rs => cases b <;> simp [boolSelect, ih]

lemma getD_map_some (r : List ℚ) (j : ℕ) :
    (r.map (fun x => (some x : Cell))).getD j none = r[j]? := by
  rw [List.getD_eq_getElem?_getD, List.getElem?_map]
  cases r[j]? <;> rfl

lemma getElem?_sq_getD (r : List ℚ) (j : ℕ) :
    ((r[j]?).map (fun x => x ^ 2)).getD 0 = (r.getD j 0) ^ 2 := by
  rw [List.getD_eq_getElem?_getD]
  cases r[j]? <;> simp

lemma nansum_sq_map_some (qrows : List (List ℚ)) (j : ℕ) :
    nansum ((col (qrows.map (List.map (fun x => (some x : Cell)))) j).map
        (Option.map (fun x => x ^ 2)))
      = (qrows.map (fun r => (r.getD j 0) ^ 2)).sum := by
  rw [nansum_eq_sum_getD]
  unfold col
  simp only [List.map_map]
  refine congrArg List.sum (List.map_congr_left (fun r _ => ?_))
  simp only [Function.comp_apply]
  rw [getD_map_some, getElem?_sq_getD]

/-- Claim C1: for a non-empty flare-free subset (and NaN-free error data),
the quiescent-spectrum error vector produced by the code equals, per
wavelength bin, the square root of the sum of the squared flux errors over
the flare-free samples, divided by the number of flare-free samples. -/
theorem quiescent_err_formula (nbins : ℕ) (errQ : List (List ℚ))
    (mask : List Bool) (hne : boolSelect mask errQ ≠ []) :
    mean_quiexcent_err nbins (errQ.map (List.map (fun x => (some x : Cell)))) mask
      = (specQuiescentErr nbins (boolSelect mask errQ)).map some := by
  unfold mean_quiexcent_err quiErr0 specQuiescentErr
  rw [boolSelect_map]
  rw [List.map_map]
  refine List.map_congr_left (fun j _ => ?_)
  have h0 : (boolSelect mask errQ).length ≠ 0 := fun h => hne (List.length_eq_zero.mp h)
  have hlen : ((boolSelect mask errQ).map (List.map (fun x => (some x : Cell)))).length
      = (boolSelect mask errQ).length := List.length_map _ _
  rw [hlen, if_neg h0, nansum_sq_map_some]
  rfl

/-- Claim C1 witness: one flare-free sample with a single bin of error 3. -/
theorem quiescent_err_formula_witness :
    mean_quiexcent_err 1 ([[(3 : ℚ)]].map (List.map (fun x => (some x : Cell)))) [true]
      = (specQuiescentErr 1 (boolSelect [true] [[(3 : ℚ)]])).map some :=
  quiescent_err_formula 1 [[3]] [true] (by simp [boolSelect])

/-! Claims C3 and C9: `load_data`'s wavelength broadcast and the epoch
concatenation `np.append(..., axis=0)` (list append on the sample axis). -/

/-- `wavelength = np.full(flux.shape, wavelength)` in `load_data`: the 1-D
wavelength grid is broadcast to one identical row per time sample. -/
def load_data_wavelength (wl : List ℚ) (flux : List (List Cell)) :
    List (List ℚ) :=
  List.replicate flux.length wl

lemma getD_replicate {α : Type} (n : ℕ) (a d : α) (i : ℕ) (h : i < n) :
    (List.replicate n a).getD i d = a := by
  rw [List.getD_eq_getElem?_getD, List.getElem?_replicate, if_pos h]
  rfl

/-- Claim C3: for two epochs with equal trailing (wavelength-bin) shape,
appending along the sample axis gives flux and error arrays whose leading
dimension is the sum of the two sample counts, and every row of the
concatenated wavelength array equals the wavelength grid of the epoch that
row comes from (`i₁` indexes into epoch 1, `i₂` into epoch 2). -/
theorem epoch_concat (wl₁ wl₂ : List ℚ)
    (flux₁ flux₂ err₁ err₂ : List (List Cell)) (i₁ i₂ : ℕ)
    (hshape : wl₁.length = wl₂.length)
    (h₁ : i₁ < flux₁.length)
    (h₂l : flux₁.length ≤ i₂) (h₂r : i₂ < flux₁.length + flux₂.length) :
    (flux₁ ++ flux₂).length = flux₁.length + flux₂.length
    ∧ (err₁ ++ err₂).length = err₁.length + err₂.length
    ∧ (load_data_wavelength wl₁ flux₁ ++ load_data_wavelength wl₂ flux₂).getD i₁ []
        = wl₁
    ∧ (load_data_wavelength wl₁ flux₁ ++ load_data_wavelength wl₂ flux₂).getD i₂ []
        = wl₂ := by
  have hlen₁ : (load_data_wavelength wl₁ flux₁).length = flux₁.length :=
    List.length_replicate _ _
  refine ⟨List.length_append _ _, List.length_append _ _, ?_, ?_⟩
  · rw [List.getD_append _ _ _ _ (by rw [hlen₁]; exact h₁)]
    exact getD_replicate _ _ _ _ h₁
  · rw [List.getD_append_right _ _ _ _ (by rw [hlen₁]; exact h₂l)]
    refine getD_replicate _ _ _ _ ?_
    rw [hlen₁]
    exact Nat.sub_lt_left_of_lt_add h₂l h₂r

/-- Claim C3 witness: a one-sample epoch appended to a two-sample epoch. -/
theorem epoch_concat_witness :
    (([[some 1]] ++ [[some 2], [some 3]] : List (List Cell)).length = 1 + 2)
    ∧ (([[some 4]] ++ [[some 5], [some 6]] : List (List Cell)).length = 1 + 2)
    ∧ (load_data_wavelength [(5 : ℚ)] [[some 1]]
        ++ load_data_wavelength [7] [[some 2], [some 3]]).getD 0 [] = [5]
    ∧ (load_data_wavelength [(5 : ℚ)] [[some 1]]
        ++ load_data_wavelength [7] [[some 2], [some 3]]).getD 2 [] = [7] := by
  have h := epoch_concat [(5 : ℚ)] [7] [[some 1]] [[some 2], [some 3]]
    [[some 4]] [[some 5], [some 6]] 0 2 rfl (by decide) (by decide) (by decide)
  exact ⟨h.1, h.2.1, h.2.2.1, h.2.2.2⟩

/-- Claim C9: within an epoch every time sample's wavelength row is the same
broadcast grid, so row 0 of the concatenated wavelength array is a grid valid
for every sample of the first epoch: every epoch-1 row of the concatenation
equals row 0, which is the epoch-1 grid itself. -/
theorem wavelength_rows_identical (wl₁ wl₂ : List ℚ)
    (flux₁ flux₂ : List (List Cell)) (i : ℕ)
    (h0 : 0 < flux₁.length) (hi : i < flux₁.length) :
    (load_data_wavelength wl₁ flux₁).getD i [] = wl₁
    ∧ (load_data_wavelength wl₁ flux₁ ++ load_data_wavelength wl₂ flux₂).getD 0 []
        = wl₁
    ∧ (load_data_wavelength wl₁ flux₁ ++ load_data_wavelength wl₂ flux₂).getD i []
        = (load_data_wavelength wl₁ flux₁
            ++ load_data_wavelength wl₂ flux₂).getD 0 [] := by
  have hlen₁ : (load_data_wavelength wl₁ flux₁).length = flux₁.length :=
    List.length_replicate _ _
  have hrow : ∀ n, n < flux₁.length →
      (load_data_wavelength wl₁ flux₁ ++ load_data_wavelength wl₂ flux₂).getD n []
        = wl₁ := by
    intro n hn
    rw [List.getD_append _ _ _ _ (by rw [hlen₁]; exact hn)]
    exact getD_replicate _ _ _ _ hn
  refine ⟨getD_replicate _ _ _ _ hi, hrow 0 h0, ?_⟩
  rw [hrow i hi, hrow 0 h0]

/-- Claim C9 witness: a two-sample epoch followed by a one-sample epoch. -/
theorem wavelength_rows_identical_witness :
    (load_data_wavelength [(5 : ℚ)] [[some 1], [some 2]]).getD 1 [] = [5]
    ∧ (load_data_wavelength [(5 : ℚ)] [[some 1], [some 2]]
        ++ load_data_wavelength [7] [[some 3]]).getD 0 [] = [5]
    ∧ (load_data_wavelength [(5 : ℚ)] [[some 1], [some 2]]
        ++ load_data_wavelength [7] [[some 3]]).getD 1 []
        = (load_data_wavelength [(5 : ℚ)] [[some 1], [some 2]]
            ++ load_data_wavelength [7] [[some 3]]).getD 0 [] :=
  wavelength_rows_identical [(5 : ℚ)] [7] [[some 1], [some 2]] [[some 3]] 1
    (by decide) (by decide)

/-! Claims C4 and C5: the line table and its consumers.  `setup_linelist`
and `DEMModeling.create_DEM` are imported in the notebook from the external
`cos_flares`/`dem_modeling` modules, whose code is not part of this
repository's sources; they are modelled from the spec. -/

/-- A row of the line-list table (`aumic_linelist.csv`): ion name, observed
center wavelength, window bounds and usability quality flag. -/
structure LineRow where
  ion : String
  wave_obs : ℚ
  wmin : ℚ
  wmax : ℚ
  quality : ℕ
deriving DecidableEq

/-- Modelled from the spec: the line-table validation performed before
line-flux measurement by `setup_linelist` (imported from `cos_flares`, not in
the repository sources).  Per the spec, `wmin < wave_obs < wmax` must hold
for every retained row, and rows violating this ordering are rejected with a
reported validation error.  Returns the retained rows together with one
validation-error report per rejected row. -/
def setup_linelist (rows : List LineRow) : List LineRow × List String :=
  (rows.filter (fun r => decide (r.wmin < r.wave_obs ∧ r.wave_obs < r.wmax)),
   (rows.filter (fun r => !decide (r.wmin < r.wave_obs ∧ r.wave_obs < r.wmax))).map
     (fun r => "invalid wavelength window for " ++ r.ion))

/-- Claim C4: every row retained by line-table validation satisfies
`wmin < wave_obs < wmax`, and a row violating the ordering is not retained
and produces a reported validation error. -/
theorem linelist_bounds_validation (rows : List LineRow) (r : LineRow)
    (hr : r ∈ rows) (hbad : ¬(r.wmin < r.wave_obs ∧ r.wave_obs < r.wmax)) :
    (∀ q ∈ (setup_linelist rows).1, q.wmin < q.wave_obs ∧ q.wave_obs < q.wmax)
    ∧ r ∉ (setup_linelist rows).1
    ∧ (setup_linelist rows).2 ≠ [] := by
  refine ⟨?_, ?_, ?_⟩
  · intro q hq
    have := List.of_mem_filter hq
    exact of_decide_eq_true this
  · intro hmem
    have := List.of_mem_filter hmem
    exact hbad (of_decide_eq_true this)
  · intro hnil
    have hfilter : r ∈ rows.filter
        (fun r => !decide (r.wmin < r.wave_obs ∧ r.wave_obs < r.wmax)) :=
      List.mem_filter.mpr ⟨hr, by simp [hbad]⟩
    have hmap : (setup_linelist rows).2 =
        (rows.filter
          (fun r => !decide (r.wmin < r.wave_obs ∧ r.wave_obs < r.wmax))).map
            (fun r => "invalid wavelength window for " ++ r.ion) := rfl
    rw [hmap, List.map_eq_nil_iff] at hnil
    rw [hnil] at hfilter
    exact List.not_mem_nil r hfilter

/-- Claim C4 witness: a two-row table whose second row has inverted bounds. -/
theorem linelist_bounds_validation_witness :
    (∀ q ∈ (setup_linelist
        [⟨"CII", 1335, 1334, 1336, 1⟩, ⟨"bad", 10, 20, 15, 1⟩]).1,
      q.wmin < q.wave_obs ∧ q.wave_obs < q.wmax)
    ∧ (⟨"bad", 10, 20, 15, 1⟩ : LineRow) ∉ (setup_linelist
        [⟨"CII", 1335, 1334, 1336, 1⟩, ⟨"bad", 10, 20, 15, 1⟩]).1
    ∧ (setup_linelist
        [⟨"CII", 1335, 1334, 1336, 1⟩, ⟨"bad", 10, 20, 15, 1⟩]).2 ≠ [] :=
  linelist_bounds_validation _ _ (by simp) (by norm_num)

/-- An entry of the per-line measurement dictionary: measured flux, flux
error, and the usability quality flag carried over from the line table. -/
structure LineEntry where
  flux : ℚ
  flux_err : ℚ
  quality : ℕ
deriving DecidableEq

/-- The line-list dictionary: line identifier to its measurement entry. -/
abbrev Linelist := List (String × LineEntry)

/-- Modelled from the spec: `DEMModeling.create_DEM` (imported from
`dem_modeling`, not in the repository sources) fits the DEM using only the
lines among `specified` whose quality flag is nonzero; the line-list record
itself is returned unmodified alongside the set of lines used in the fit. -/
def create_DEM (linelist : Linelist) (specified : List String) :
    List (String × LineEntry) × Linelist :=
  (linelist.filter (fun p => decide (p.1 ∈ specified) && decide (p.2.quality ≠ 0)),
   linelist)

/-- Claim C5: a line whose quality flag is 0 is excluded from the lines used
by the DEM fit while its entry is retained in the line-list record. -/
theorem dem_excludes_low_quality (ll : Linelist) (specified : List String)
    (name : String) (e : LineEntry) (hmem : (name, e) ∈ ll)
    (hq : e.quality = 0) :
    (name, e) ∉ (create_DEM ll specified).1
    ∧ (name, e) ∈ (create_DEM ll specified).2 := by
  refine ⟨?_, hmem⟩
  intro hin
  have := List.of_mem_filter hin
  rw [Bool.and_eq_true, decide_eq_true_iff, decide_eq_true_iff] at this
  exact this.2 hq

/-- Claim C5 witness: a quality-0 line alongside a quality-1 line. -/
theorem dem_excludes_low_quality_witness :
    ("SiI", (⟨2, 1, 0⟩ : LineEntry)) ∉
      (create_DEM [("CII", ⟨5, 1, 1⟩), ("SiI", ⟨2, 1, 0⟩)] ["CII", "SiI"]).1
    ∧ ("SiI", (⟨2, 1, 0⟩ : LineEntry)) ∈
      (create_DEM [("CII", ⟨5, 1, 1⟩), ("SiI", ⟨2, 1, 0⟩)] ["CII", "SiI"]).2 :=
  dem_excludes_low_quality [("CII", ⟨5, 1, 1⟩), ("SiI", ⟨2, 1, 0⟩)]
    ["CII", "SiI"] "SiI" ⟨2, 1, 0⟩ (by simp) rfl

/-! Claim C6: serialization round-trip.  The notebook persists the line-list
dictionary and the emissivity table with `pickle.dump` / `pd.read_pickle`;
the pickle format itself is library code outside the repository sources, so
it is modelled from the spec as a flat token stream. -/

/-- A token of the modelled serialization stream. -/
inductive Tok where
  | key (v : String)
  | num (v : ℚ)
  | cnt (n : ℕ)
deriving DecidableEq

/-- Modelled from the spec: the serialized form of the line-list dictionary
written by `pickle.dump(aumic_linelist, ...)` — each entry flattened to its
key followed by its numeric fields. -/
def encodeEntries : Linelist → List Tok
  | [] => []
  | (k, e) :: tl =>
      Tok.key k :: Tok.num e.flux :: Tok.num e.flux_err :: Tok.cnt e.quality
        :: encodeEntries tl

/-- Modelled from the spec: `pickle.dump` for the line-list dictionary. -/
def pickle_dump (ll : Linelist) : List Tok :=
  Tok.cnt ll.length :: encodeEntries ll

def decodeEntries : ℕ → List Tok → Option (Linelist × List Tok)
  | 0, ts => some ([], ts)
  | n + 1, Tok.key k :: Tok.num f :: Tok.num fe :: Tok.cnt q :: rest =>
      match decodeEntries n rest with
      | some (tl, rem) => some ((k, ⟨f, fe, q⟩) :: tl, rem)
      | none => none
  | _ + 1, _ => none

/-- Modelled from the spec: `pd.read_pickle` for the line-list dictionary. -/
def read_pickle (ts : List Tok) : Option Linelist :=
  match ts with
  | Tok.cnt n :: rest =>
      match decodeEntries n rest with
      | some (ll, []) => some ll
      | _ => none
  | _ => none

/-- The emissivity table `G_T`: ion identifier to an emissivity vector over
the fixed log-temperature grid. -/
abbrev GTTable := List (String × List ℚ)

def encodeVec (v : List ℚ) : List Tok := v.map Tok.num

def encodeGTEntries : GTTable → List Tok
  | [] => []
  | (k, v) :: tl =>
      Tok.key k :: Tok.cnt v.length :: (encodeVec v ++ encodeGTEntries tl)

/-- Modelled from the spec: `pickle.dump(cs.G_T, ...)`. -/
def dump_G_T (gt : GTTable) : List Tok :=
  Tok.cnt gt.length :: encodeGTEntries gt

def decodeVec : ℕ → List Tok → Option (List ℚ × List Tok)
  | 0, ts => some ([], ts)
  | n + 1, Tok.num x :: rest =>
      match decodeVec n rest with
      | some (v, rem) => some (x :: v, rem)
      | none => none
  | _ + 1, _ => none

def decodeGTEntries : ℕ → List Tok → Option (GTTable × List Tok)
  | 0, ts => some ([], ts)
  | n + 1, Tok.key k :: Tok.cnt m :: rest =>
      match decodeVec m rest with
      | some (v, rem) =>
          match decodeGTEntries n rem with
          | some (tl, rem2) => some ((k, v) :: tl, rem2)
          | none => none
      | none => none
  | _ + 1, _ => none

/-- Modelled from the spec: `pd.read_pickle` for the emissivity table. -/
def read_G_T (ts : List Tok) : Option GTTable :=
  match ts with
  | Tok.cnt n :: rest =>
      match decodeGTEntries n rest with
      | some (gt, []) => some gt
      | _ => none
  | _ => none

lemma decodeEntries_encodeEntries (ll : Linelist) (rest : List Tok) :
    decodeEntries ll.length (encodeEntries ll ++ rest) = some (ll, rest) := by
  induction ll with
  | nil => rfl
  | cons p tl ih =>
    obtain ⟨k, e⟩ := p
    simp only [encodeEntries, List.length_cons, List.cons_append, decodeEntries,
      List.append_eq]
    rw [ih]

lemma decodeVec_encodeVec (v : List ℚ) (rest : List Tok) :
    decodeVec v.length (encodeVec v ++ rest) = some (v, rest) := by
  induction v with
  | nil => rfl
  | cons x tl ih =>
    simp only [encodeVec, List.map_cons, List.length_cons, List.cons_append,
      decodeVec, List.append_eq]
    rw [show (tl.map Tok.num) = encodeVec tl from rfl, ih]

lemma decodeGTEntries_encodeGTEntries (gt : GTTable) (rest : List Tok) :
    decodeGTEntries gt.length (encodeGTEntries gt ++ rest) = some (gt, rest) := by
  induction gt with
  | nil => rfl
  | cons p tl ih =>
    obtain ⟨k, v⟩ := p
    simp only [encodeGTEntries, List.length_cons, List.cons_append,
      List.append_eq, List.append_assoc, decodeGTEntries]
    rw [decodeVec_encodeVec]
    dsimp only
    rw [ih]

/-- Claim C6: serializing then deserializing the line-list dictionary or the
emissivity table reproduces a value with identical keys and numerically
identical values to the original. -/
theorem pickle_roundtrip (ll : Linelist) (gt : GTTable) :
    read_pickle (pickle_dump ll) = some ll
    ∧ read_G_T (dump_G_T gt) = some gt := by
  constructor
  · show read_pickle (Tok.cnt ll.length :: encodeEntries ll) = some ll
    have h := decodeEntries_encodeEntries ll []
    rw [List.append_nil] at h
    simp [read_pickle, h]
  · show read_G_T (Tok.cnt gt.length :: encodeGTEntries gt) = some gt
    have h := decodeGTEntries_encodeGTEntries gt []
    rw [List.append_nil] at h
    simp [read_G_T, h]

/-! Claim C8: the pipeline's serialization checkpoints.  The order and count
of the `pickle.dump` calls come from the notebook cells; the enrichment
behaviour of the intermediate stages (`setup_linelist`, `ChiantiSetup`,
`DEMModeling`, not in the repository sources) is modelled from the spec. -/

/-- An entry of the in-process line-list dictionary, with the fields each
stage fills in: measured flux, attached emissivity curve, DEM-model output. -/
structure PLEntry where
  flux : Option ℚ
  gT : Option (List ℚ)
  demModel : Option ℚ
deriving DecidableEq

/-- An artifact written to disk by the notebook: a snapshot of the line-list
dictionary, or the emissivity-grid object. -/
inductive Artifact where
  | llSnap (ll : List (String × PLEntry))
  | gtSnap (gt : GTTable)
deriving DecidableEq

def Artifact.isLL : Artifact → Bool
  | .llSnap _ => true
  | _ => false

def Artifact.isGT : Artifact → Bool
  | .gtSnap _ => true
  | _ => false

/-- The dictionary snapshots among a list of artifacts. -/
def llSnapshots (arts : List Artifact) : List (List (String × PLEntry)) :=
  arts.filterMap (fun a =>
    match a with
    | .llSnap ll => some ll
    | _ => none)

/-- Modelled from the spec: line-flux measurement (`setup_linelist`) enriches
every entry in place with its measured flux. -/
def measure_fluxes (ll : List (String × PLEntry)) (fl : String → ℚ) :
    List (String × PLEntry) :=
  ll.map (fun p => (p.1, { p.2 with flux := some (fl p.1) }))

/-- Modelled from the spec: emissivity-curve attachment (`ChiantiSetup`)
enriches every entry in place with its temperature-response curve. -/
def attach_emissivity (ll : List (String × PLEntry)) (g : String → List ℚ) :
    List (String × PLEntry) :=
  ll.map (fun p => (p.1, { p.2 with gT := some (g p.1) }))

/-- Modelled from the spec: the DEM fit (`DEMModeling.create_DEM`) enriches
every entry in place with its DEM-model output. -/
def attach_dem (ll : List (String × PLEntry)) (d : String → ℚ) :
    List (String × PLEntry) :=
  ll.map (fun p => (p.1, { p.2 with demModel := some (d p.1) }))

/-- The notebook's pipeline in cell order: measure fluxes, dump the line list
(`aumic_linelist.pkl`); attach emissivity curves, dump `G_T`
(`aumic_G_T.pkl`) and the updated line list (`aumic_linelist_updated.pkl`);
fit the DEM, dump the final line list (`aumic_dem_models.pkl`).  Returns the
written artifacts and the final dictionary. -/
def run_pipeline (init : List (String × PLEntry)) (fl : String → ℚ)
    (g : String → List ℚ) (d : String → ℚ) (gt : GTTable) :
    List Artifact × List (String × PLEntry) :=
  let ll1 := measure_fluxes init fl
  let ll2 := attach_emissivity ll1 g
  let ll3 := attach_dem ll2 d
  ([Artifact.llSnap ll1, Artifact.gtSnap gt, Artifact.llSnap ll2,
    Artifact.llSnap ll3], ll3)

lemma map_fst_enrich (ll : List (String × PLEntry)) (f : String × PLEntry → PLEntry) :
    (ll.map (fun p => (p.1, f p))).map Prod.fst = ll.map Prod.fst := by
  rw [List.map_map]
  rfl

/-- Claim C8: the pipeline serializes the line-list dictionary at exactly
three checkpoints — after flux measurement, after emissivity attachment and
after the DEM fit — plus the emissivity grid once; no stage destroys the
dictionary, whose keys are preserved through every enrichment. -/
theorem pipeline_checkpoints (init : List (String × PLEntry))
    (fl : String → ℚ) (g : String → List ℚ) (d : String → ℚ) (gt : GTTable) :
    (run_pipeline init fl g d gt).1.countP Artifact.isLL = 3
    ∧ (run_pipeline init fl g d gt).1.countP Artifact.isGT = 1
    ∧ llSnapshots (run_pipeline init fl g d gt).1 =
        [measure_fluxes init fl,
         attach_emissivity (measure_fluxes init fl) g,
         attach_dem (attach_emissivity (measure_fluxes init fl) g) d]
    ∧ (measure_fluxes init fl).map Prod.fst = init.map Prod.fst
    ∧ (attach_emissivity (measure_fluxes init fl) g).map Prod.fst
        = init.map Prod.fst
    ∧ (run_pipeline init fl g d gt).2.map Prod.fst = init.map Prod.fst := by
  refine ⟨rfl, rfl, rfl, ?_, ?_, ?_⟩
  · exact map_fst_enrich init _
  · rw [attach_emissivity, map_fst_enrich, measure_fluxes, map_fst_enrich]
  · show (attach_dem (attach_emissivity (measure_fluxes init fl) g) d).map
        Prod.fst = init.map Prod.fst
    rw [attach_dem, map_fst_enrich, attach_emissivity, map_fst_enrich,
      measure_fluxes, map_fst_enrich]

end HdlDem
